import Mathlib

/-!
Shallow embedding of `src/paired_t-test.py` (class `PairedTTest`): raster
loading with sentinel masking and scaling, the numpy masked-array alignment
performed by `Run`, the `scipy.stats.ttest_rel` paired t-test, and the text
report produced by `PairedT_Test`.

Modelling conventions:
* IEEE doubles are modelled by `ℚ`; the NaN and infinity outcomes that
  `scipy.stats.ttest_rel` can produce are modelled explicitly by the
  `TStat` / `PVal` types (`numpy` yields `0/0 = nan` and `x/0 = ±inf` under
  `errstate(ignore)`, and `nan < c` is false).
* The finite t statistic `dm / sqrt(v/n)` is irrational in general, so a
  finite value is represented exactly by the rational pair `(dm, v/n)`.
* The survival function of Student's t distribution is transcendental; it is
  kept abstract as a parameter `sf` (taking the exact representation of `|t|`
  and the degrees of freedom).  No claim depends on its values.
* File-system writes are modelled by a `FileWrite` record (path, mode,
  encoding, content); standard output is carried in `RunOutcome`.
* A raster file is modelled by its flattened raw band values, its
  `SCALE_FACTOR` tag and its filename-derived display date (`RasterInput`);
  the date string plays no role in any claimed property.
* numpy's masks come in two forms: a materialised boolean array, or the
  `nomask` singleton that `ma.masked_where` stores when no pixel matches the
  condition, and for which `ma.array` skips its mask/data size check.  The
  `MArr` model materialises every mask - adequate wherever the two forms are
  observationally equal, i.e. for equal-length series; the `MArrN` model
  (`Option` mask, `none` = `nomask`) captures the shrinking exactly and is
  used where the size check makes the difference observable (mismatched
  pixel counts).
-/

namespace PairedTTest

/-- Sentinel raw value marking invalid pixels: `self.mask_val = -1000`. -/
def maskVal : ℚ := -1000

/-- Arithmetic mean of a list (`numpy` `.mean()`), `sum / length`.
For the empty list `ℚ` division by zero gives `0`; the empty case feeds only
report strings that no claimed property inspects. -/
def mean (l : List ℚ) : ℚ := l.sum / (l.length : ℚ)

/-- Sample variance with one delta degree of freedom, `np.var(d, ddof=1)`,
as used inside `scipy.stats.ttest_rel`.  Meaningful for `2 ≤ l.length`. -/
def sampleVar (l : List ℚ) : ℚ :=
  ((l.map (fun x => (x - mean l) ^ 2)).sum) / ((l.length : ℚ) - 1)

/-- Outcome of the t statistic of `scipy.stats.ttest_rel` on doubles:
`nan` for the degenerate `0/0` (zero-variance differences with zero mean, or
fewer than two pairs), a signed infinity for `dm/0` with `dm ≠ 0`, and
otherwise the finite value `dm / sqrt vn` represented by the pair `(dm, vn)`
with `vn > 0`. -/
inductive TStat where
  | nan : TStat
  | inf (pos : Bool) : TStat
  | finite (dm vn : ℚ) : TStat
  deriving DecidableEq, Repr

/-- The t statistic computed by `scipy.stats.ttest_rel(a, b)`:
`d = a - b`, `dm = mean d`, `v = var(d, ddof=1)`, `t = dm / sqrt (v / n)`.
For `n < 2` the `ddof=1` variance is undefined and scipy produces NaN (it
emits a warning, not an exception).  Modelled for equal-length inputs, which
is how `Run` always calls it. -/
def tStatistic (a b : List ℚ) : TStat :=
  let d := List.zipWith (fun x y => x - y) a b
  if d.length < 2 then TStat.nan
  else
    let dm := mean d
    let v := sampleVar d
    if v = 0 then
      if dm = 0 then TStat.nan else TStat.inf (decide (0 < dm))
    else TStat.finite dm (v / (d.length : ℚ))

/-- A p-value as a double: NaN or a rational value. -/
inductive PVal where
  | nan : PVal
  | val (p : ℚ) : PVal
  deriving DecidableEq, Repr

/-- Two-sided p-value `2 * sf(|t|, df)` of `scipy.stats.ttest_rel`, with the
t-distribution survival function kept abstract as `sf` (applied to the exact
representation `(dm, vn)` of the finite statistic).  `sf` at infinity is `0`,
and NaN propagates. -/
def pValue (sf : ℚ → ℚ → ℕ → ℚ) (df : ℕ) : TStat → PVal
  | TStat.nan => PVal.nan
  | TStat.inf _ => PVal.val 0
  | TStat.finite dm vn => PVal.val (2 * sf dm vn df)

/-- Python `pvalue < c` on doubles: false when the p-value is NaN. -/
def PVal.ltBool (p : PVal) (c : ℚ) : Bool :=
  match p with
  | PVal.nan => false
  | PVal.val q => decide (q < c)

/-- The interpretation sentence built at lines 55-60 of the source.  The
significant branch is an f-string and interpolates the variable name; the
continuation line of the non-significant branch is missing the `f` prefix in
the source, so its text contains the literal characters `{self.var}`. -/
def noteText (var : String) (p : PVal) : String :=
  if p.ltBool (1 / 20) then
    "NOTE: There is statistically significant difference between the " ++ var
      ++ " values of two groups."
  else
    "NOTE: There is NOT statistically significant difference between the \x7bself.var\x7d values of two groups."

/-- Decimal digit to character (the `% 10` keeping the code point valid for
out-of-range arguments, which never occur). -/
def digitChar (d : ℕ) : Char := Char.ofNat (48 + d % 10)

/-- Character to decimal digit, if it is one. -/
def charDigit? (c : Char) : Option ℕ :=
  if '0' ≤ c ∧ c ≤ '9' then some (c.toNat - 48) else none

/-- Decimal digits of a natural number, most significant first (`0 ↦ "0"`). -/
def natDigits (n : ℕ) : List Char :=
  if n < 10 then [digitChar n]
  else natDigits (n / 10) ++ [digitChar (n % 10)]
  decreasing_by exact Nat.div_lt_self (by omega) (by omega)

/-- Round half to even, the rounding applied by Python float formatting. -/
def rhe (q : ℚ) : ℤ :=
  let f := ⌊q⌋
  if q - (f : ℚ) < 1 / 2 then f
  else if (1 : ℚ) / 2 < q - (f : ℚ) then f + 1
  else if f % 2 = 0 then f else f + 1

/-- The p-value rounded to 4 decimal places. -/
def round4 (q : ℚ) : ℚ := ((rhe (q * 10000) : ℤ) : ℚ) / 10000

/-- Left-pad a digit list with zeros to width 4. -/
def pad4 (l : List Char) : List Char := List.replicate (4 - l.length) '0' ++ l

/-- Python `f"{q:.4f}"` for a nonnegative value: integer part, a dot, and
exactly four fractional digits of the value rounded half-to-even. -/
def fmt4 (q : ℚ) : String :=
  let n := (rhe (q * 10000)).toNat
  String.mk (natDigits (n / 10000) ++ '.' :: pad4 (natDigits (n % 10000)))

/-- The string `pvalue = f"{pvalue:.4f}"` of source line 61 (`"nan"` when the
p-value is NaN). -/
def pvalStr : PVal → String
  | PVal.nan => "nan"
  | PVal.val q => fmt4 q

/-- Display string standing in for Python's repr of a double.  Its exact shape
is irrelevant to every claimed property. -/
def ratStr (q : ℚ) : String := toString q

/-- Display string for the t statistic in the report line `T-value: {stat}`. -/
def showT : TStat → String
  | TStat.nan => "nan"
  | TStat.inf pos => if pos then "inf" else "-inf"
  | TStat.finite dm vn => ratStr dm ++ "/sqrt(" ++ ratStr vn ++ ")"

/-- The string `'_' * 50`. -/
def underscores (n : ℕ) : String := String.mk (List.replicate n '_')

/-- The report text up to (excluding) the `P-value: ` line, source lines 64-70. -/
def headerText (var area pre_date post_date : String) : String :=
  "          ***      Test Summary     ***          \n\n" ++
  "Variable Name: " ++ var ++ "\n" ++
  "Study Area Name: " ++ area ++ "\n" ++
  "Date of the Reference " ++ var ++ ": " ++ pre_date ++ "\n" ++
  "Date of the Last " ++ var ++ "     : " ++ post_date ++ "\n" ++
  underscores 50 ++ "\n\n" ++
  "          *** Paired T-Test Results ***          \n\n"

/-- The full report text `txt` built at source lines 63-75. -/
def reportText (var area pre_date post_date pstr tstr preMeanStr postMeanStr note : String) :
    String :=
  headerText var area pre_date post_date ++
  "P-value: " ++ pstr ++ "\n" ++
  "T-value: " ++ tstr ++ "\n\n" ++
  "Average " ++ var ++ " of the Reference Date: " ++ preMeanStr ++ "\n" ++
  "Average " ++ var ++ " of the Last Date     : " ++ postMeanStr ++ "\n\n" ++
  note

/-- The constructor arguments of the class: variable name, area name, output
directory (the two raster paths are modelled by `RasterInput` below). -/
structure Config where
  var : String
  area : String
  outdir : String
  deriving DecidableEq

/-- The output file name template of source line 78, built from the raw
variable and area tokens.  (Source line 77 computes `self.var.replace(" ", "_")`
into a local that is never used.) -/
def fileName (var area : String) : String :=
  "Paired-t-test_results_" ++ var ++ "-values_" ++ area ++ ".txt"

/-- Whether `s` ends with `suffix`, on the character lists. -/
def strEnds (s suf : String) : Bool := suf.data.isSuffixOf s.data

/-- Model of `os.path.join(outdir, file)` with the `/` separator: the
separator is inserted unless the directory is empty or already ends in one. -/
def pathJoin (dir file : String) : String :=
  if dir = "" then file
  else if strEnds dir "/" then dir ++ file
  else dir ++ "/" ++ file

/-- Mode of the report write: `open(output_path, "w", ...)` truncates and
overwrites an existing file. -/
inductive WriteMode where
  | overwrite : WriteMode
  deriving DecidableEq

/-- Encoding of the report write: `encoding="utf-8"`. -/
inductive TextEncoding where
  | utf8 : TextEncoding
  deriving DecidableEq

/-- A completed file write: path, mode, encoding and the full contents. -/
structure FileWrite where
  path : String
  mode : WriteMode
  encoding : TextEncoding
  content : String
  deriving DecidableEq

/-- The method `PairedT_Test` (source lines 50-84): run the test, build the
report text, write it (the `print` under `redirect_stdout` appends a final
newline), and return the output path. -/
def PairedT_Test (sf : ℚ → ℚ → ℕ → ℚ) (cfg : Config) (pre_arr post_arr : List ℚ)
    (pre_date post_date : String) : FileWrite × String :=
  let stat := tStatistic pre_arr post_arr
  let p := pValue sf (pre_arr.length - 1) stat
  let pre_mean := mean pre_arr
  let post_mean := mean post_arr
  let note := noteText cfg.var p
  let pvalue := pvalStr p
  let txt := reportText cfg.var cfg.area pre_date post_date pvalue (showT stat)
    (ratStr pre_mean) (ratStr post_mean) note
  let output_path := pathJoin cfg.outdir (fileName cfg.var cfg.area)
  (⟨output_path, WriteMode.overwrite, TextEncoding.utf8, txt ++ "\n"⟩, output_path)

/-- A numpy masked array, flattened, with a materialised boolean mask
(`true` = masked/invalid; well-formedness `MArr.wf` records one entry per
pixel).  This is the sub-model in which the mask is an array: numpy shrinks
an all-False mask to `nomask` (see `MArrN` below), but for equal-length
series an all-False array mask and `nomask` are observationally identical,
so this model is faithful there. -/
structure MArr where
  data : List ℚ
  mask : List Bool
  deriving DecidableEq

/-- The mask has one entry per data element. -/
def MArr.wf (a : MArr) : Prop := a.mask.length = a.data.length

/-- Number of valid elements, `arr.count(axis=0)` on the flattened array. -/
def countValid (a : MArr) : ℕ := a.mask.count false

/-- The valid elements in original positional order, `arr.compressed()`. -/
def compressed (a : MArr) : List ℚ :=
  (a.data.zip a.mask).filterMap (fun x => if x.2 then none else some x.1)

/-- One input raster: flattened raw band values, the parsed `SCALE_FACTOR`
tag, and the filename-derived display date. -/
structure RasterInput where
  raw : List ℚ
  scale : ℚ
  date : String

/-- The method `GetRasterData` (source lines 36-48) in the materialised-mask
sub-model: mask where the raw value equals the sentinel, then multiply by
the scale factor and flatten.  The mask is decided on the raw, pre-scaling
values.  numpy's shrinking of an all-False mask to `nomask` is omitted here
and modelled exactly by `GetRasterDataN`; the two differ observably only
through the `ma.array` size check on mismatched lengths. -/
def GetRasterData (r : RasterInput) : MArr :=
  { data := r.raw.map (fun x => x * r.scale)
    mask := r.raw.map (fun x => decide (x = maskVal)) }

/-- The numpy `MaskError` raised by `ma.array` when mask and data sizes are
incompatible, with the reported data and mask sizes. -/
structure MaskErr where
  nd : ℕ
  nm : ℕ
  deriving DecidableEq

/-- The constructor call `ma.array(a, mask=m)` with the default
`keep_mask=True`, restricted to the array-mask branch (a materialised mask
supplied to an array with a materialised mask): the supplied mask is
combined with the existing one by logical or; a size-1 mask is broadcast
(`np.resize`); any other size mismatch raises `MaskError`.  The `nomask`
branch of the real constructor, which performs no size check, is modelled
by `maArrayN`. -/
def maArray (a : MArr) (m : List Bool) : Except MaskErr MArr :=
  if m.length = a.data.length then
    Except.ok { data := a.data, mask := a.mask.zipWith or m }
  else if m.length = 1 then
    Except.ok { data := a.data
                mask := a.mask.zipWith or (List.replicate a.data.length (m.headD false)) }
  else Except.error { nd := a.data.length, nm := m.length }

/-- Source lines 93-94: re-mask the first series with the second's mask, then
re-mask the second series with the (already updated) first series' mask. -/
def alignPair (pre post : MArr) : Except MaskErr (MArr × MArr) :=
  match maArray pre post.mask with
  | Except.error e => Except.error e
  | Except.ok pre2 =>
    match maArray post pre2.mask with
    | Except.error e => Except.error e
    | Except.ok post2 => Except.ok (pre2, post2)

/-- Pipeline stage at which an exception was raised. -/
inductive Stage where
  | beforeAlign
  | atAlign
  deriving DecidableEq

/-- An uncaught exception aborting `Run`, tagged with its stage. -/
structure RunErr where
  stage : Stage
  err : MaskErr
  deriving DecidableEq

/-- Terminal outcome of a completed `Run`: either the report was written and
the output path printed, or the diagnostic message was printed and nothing
was written. -/
inductive RunOutcome where
  | wrote (file : FileWrite) (stdout : String)
  | skipped (stdout : String)
  deriving DecidableEq

/-- The diagnostic printed on the count-mismatch branch, source lines 105-106. -/
def lengthDiag : String :=
  "The length of data in two groups are not equal. So, the paired t-test is not applicable."

/-- Source lines 96-106: if the valid counts agree, compress both series, run
the test and write the report, printing the output path; otherwise print the
diagnostic and write nothing. -/
def runFromAligned (sf : ℚ → ℚ → ℕ → ℚ) (cfg : Config) (pre_date post_date : String)
    (pre post : MArr) : RunOutcome :=
  if countValid pre = countValid post then
    let r := PairedT_Test sf cfg (compressed pre) (compressed post) pre_date post_date
    RunOutcome.wrote r.1 ("\nThe outputs are written in:\n" ++ r.2)
  else RunOutcome.skipped lengthDiag

/-- Source lines 90-106: the part of `Run` after both rasters are loaded. -/
def runAfterLoad (sf : ℚ → ℚ → ℕ → ℚ) (cfg : Config) (pre_date post_date : String)
    (pre post : MArr) : Except RunErr RunOutcome :=
  match alignPair pre post with
  | Except.error e => Except.error { stage := Stage.atAlign, err := e }
  | Except.ok (p1, p2) => Except.ok (runFromAligned sf cfg pre_date post_date p1 p2)

/-- The method `Run` (source lines 86-106): load both rasters, align their
masks, and either test-and-report or print the diagnostic. -/
def Run (sf : ℚ → ℚ → ℕ → ℚ) (cfg : Config) (ref lst : RasterInput) :
    Except RunErr RunOutcome :=
  runAfterLoad sf cfg ref.date lst.date (GetRasterData ref) (GetRasterData lst)

/-- The mask shrinking of `ma.masked_where` (numpy since 1.15): when the
condition holds nowhere the stored mask is the `nomask` singleton (`none`
here), otherwise the boolean array itself. -/
def shrinkMask (m : List Bool) : Option (List Bool) :=
  if m.contains true then some m else none

/-- A numpy masked array whose mask may be `nomask` (`none`).  `MArr` above
is the sub-model in which the mask is always a materialised array; the two
behave identically except for the `ma.array` size check, which `nomask`
skips, so the distinction is observable only on mismatched lengths. -/
structure MArrN where
  data : List ℚ
  mask : Option (List Bool)
  deriving DecidableEq

/-- `GetRasterData` including numpy's mask shrinking: a raster with no
sentinel pixel carries `nomask`. -/
def GetRasterDataN (r : RasterInput) : MArrN :=
  { data := r.raw.map (fun x => x * r.scale)
    mask := shrinkMask (r.raw.map (fun x => decide (x = maskVal))) }

/-- How `ma.array` (with `keep_mask=True`) combines a supplied array mask
with the array's existing mask state: an existing `nomask` simply adopts the
supplied mask, otherwise the two are ORed. -/
def combineMask (am : Option (List Bool)) (ml : List Bool) : List Bool :=
  match am with
  | none => ml
  | some a => a.zipWith or ml

/-- `ma.array(a, mask=m)` with a possibly-`nomask` mask argument: for
`nomask` the constructor performs no size check at all and keeps the
existing mask; for an array mask it size-checks (broadcasting size 1,
raising `MaskError` on any other mismatch) and combines via `combineMask`. -/
def maArrayN (a : MArrN) (m : Option (List Bool)) : Except MaskErr MArrN :=
  match m with
  | none => Except.ok a
  | some ml =>
    if ml.length = a.data.length then
      Except.ok { data := a.data, mask := some (combineMask a.mask ml) }
    else if ml.length = 1 then
      Except.ok { data := a.data
                  mask := some (combineMask a.mask
                    (List.replicate a.data.length (ml.headD false))) }
    else Except.error { nd := a.data.length, nm := ml.length }

/-- Source lines 93-94 over possibly-`nomask` arrays. -/
def alignPairN (pre post : MArrN) : Except MaskErr (MArrN × MArrN) :=
  match maArrayN pre post.mask with
  | Except.error e => Except.error e
  | Except.ok pre2 =>
    match maArrayN post pre2.mask with
    | Except.error e => Except.error e
    | Except.ok post2 => Except.ok (pre2, post2)

/-- `arr.count(axis=0)` on a possibly-`nomask` array (everything is valid
under `nomask`). -/
def countValidN (a : MArrN) : ℕ :=
  match a.mask with
  | none => a.data.length
  | some ml => ml.count false

/-- `arr.compressed()` on a possibly-`nomask` array. -/
def compressedN (a : MArrN) : List ℚ :=
  match a.mask with
  | none => a.data
  | some ml => (a.data.zip ml).filterMap (fun x => if x.2 then none else some x.1)

/-- Source lines 96-106 over possibly-`nomask` arrays. -/
def runFromAlignedN (sf : ℚ → ℚ → ℕ → ℚ) (cfg : Config) (pre_date post_date : String)
    (pre post : MArrN) : RunOutcome :=
  if countValidN pre = countValidN post then
    let r := PairedT_Test sf cfg (compressedN pre) (compressedN post) pre_date post_date
    RunOutcome.wrote r.1 ("\nThe outputs are written in:\n" ++ r.2)
  else RunOutcome.skipped lengthDiag

/-- Source lines 90-106 over possibly-`nomask` arrays. -/
def runAfterLoadN (sf : ℚ → ℚ → ℕ → ℚ) (cfg : Config) (pre_date post_date : String)
    (pre post : MArrN) : Except RunErr RunOutcome :=
  match alignPairN pre post with
  | Except.error e => Except.error { stage := Stage.atAlign, err := e }
  | Except.ok (p1, p2) => Except.ok (runFromAlignedN sf cfg pre_date post_date p1 p2)

/-- The method `Run` over the `nomask`-aware model: the faithful semantics
on rasters of any lengths, with or without sentinel pixels. -/
def RunN (sf : ℚ → ℚ → ℕ → ℚ) (cfg : Config) (ref lst : RasterInput) :
    Except RunErr RunOutcome :=
  runAfterLoadN sf cfg ref.date lst.date (GetRasterDataN ref) (GetRasterDataN lst)

/-- Whether a raster contains a sentinel pixel (exactly when its shrunk mask
is a materialised array rather than `nomask`). -/
def hasSentinel (r : RasterInput) : Bool :=
  (r.raw.map (fun x => decide (x = maskVal))).contains true

/-- Pointwise or of two masks (the union of the invalid sets). -/
def maskUnion (m1 m2 : List Bool) : List Bool := List.zipWith or m1 m2

/-- Modelled from the spec: the aligned series the Mask Aligner contract
describes - the values of `data` at the positions valid in both original
masks, in original positional order. -/
def jointKeep (data : List ℚ) (m1 m2 : List Bool) : List ℚ :=
  (data.zip (m1.zip m2)).filterMap
    (fun x => if x.2.1 = false ∧ x.2.2 = false then some x.1 else none)

/-- Modelled from the spec: the count of jointly valid pixel positions. -/
def jointCount (m1 m2 : List Bool) : ℕ :=
  ((m1.zip m2).filter (fun p => !p.1 && !p.2)).length

/-- The spec data model `TestResult`: t statistic, p-value and both means,
all doubles. -/
structure TestResult where
  tstat : ℚ
  pval : ℚ
  mean_pre : ℚ
  mean_post : ℚ

/-- Formatting a `TestResult` into the report text exactly as source lines
55-75 do: the p-value through `f"{pvalue:.4f}"`, the other numbers through
the double repr, and the interpretation sentence from the p-value. -/
def formatTestResult (var area pre_date post_date : String) (r : TestResult) : String :=
  reportText var area pre_date post_date (fmt4 r.pval) (ratStr r.tstat)
    (ratStr r.mean_pre) (ratStr r.mean_post) (noteText var (PVal.val r.pval))

/-- Boolean test that `p` is an initial segment of `l`. -/
def chPre : List Char → List Char → Bool
  | [], _ => true
  | _ :: _, [] => false
  | a :: as, b :: bs => a == b && chPre as bs

/-- The field label introducing the p-value line of the report. -/
def pvLabel : List Char := "P-value: ".data

/-- Modelled from the spec: re-parsing the p-value field back out of the
report text - scan for the first occurrence of `"P-value: "` and return the
rest of that line. -/
def findPValue : List Char → Option (List Char)
  | [] => none
  | c :: cs =>
    if chPre pvLabel (c :: cs) then
      some (((c :: cs).drop pvLabel.length).takeWhile (fun ch => ch != '\n'))
    else findPValue cs

/-- Fold decimal digit characters onto an accumulator; fails on a non-digit. -/
def digitsVal : List Char → ℕ → Option ℕ
  | [], acc => some acc
  | c :: cs, acc =>
    match charDigit? c with
    | none => none
    | some d => digitsVal cs (acc * 10 + d)

/-- Parse a nonempty all-digit string as a natural number. -/
def digitsToNat : List Char → Option ℕ
  | [] => none
  | c :: cs => digitsVal (c :: cs) 0

/-- Modelled from the spec: parse a fixed-point decimal string
`<digits>.<digits>` as a rational number. -/
def parseDec (l : List Char) : Option ℚ :=
  let ip := l.takeWhile (fun c => c != '.')
  match l.dropWhile (fun c => c != '.') with
  | '.' :: fp =>
    match digitsToNat ip, digitsToNat fp with
    | some i, some f => some ((i : ℚ) + (f : ℚ) / ((10 : ℚ) ^ fp.length))
    | _, _ => none
  | _ => none

/-- Modelled from the spec: extract and parse the p-value field of a report. -/
def parsePValue (s : String) : Option ℚ := (findPValue s.data).bind parseDec

/-- Whether the pattern occurs as a contiguous substring. -/
def occursIn (pat s : List Char) : Bool := s.tails.any (fun t => chPre pat t)

/-- Whether a run result is a written report. -/
def isWroteE : Except RunErr RunOutcome → Bool
  | Except.ok (RunOutcome.wrote _ _) => true
  | _ => false

/-- Whether a run result is the skipped (diagnostic) outcome. -/
def isSkippedE : Except RunErr RunOutcome → Bool
  | Except.ok (RunOutcome.skipped _) => true
  | _ => false

/-- Whether a run result is an exception raised at the mask-alignment step. -/
def alignStageFailed : Except RunErr RunOutcome → Bool
  | Except.error e => e.stage == Stage.atAlign
  | _ => false

/-- Whether a run result is an exception raised before the mask-alignment
step was reached. -/
def failsBeforeAlign : Except RunErr RunOutcome → Bool
  | Except.error e => e.stage == Stage.beforeAlign
  | _ => false

/-- Whether the t statistic outcome is the (finite) value zero. -/
def TStat.isZeroStat : TStat → Bool
  | TStat.finite dm _ => dm == 0
  | _ => false

/-- Whether the p-value outcome is the value one. -/
def PVal.isOne : PVal → Bool
  | PVal.val q => q == 1
  | PVal.nan => false

/-- Bool scan used as a side condition of the round-trip theorem: does the
p-value label occur anywhere in the report header (followed by the label
itself, so that straddling occurrences are also covered)? -/
def headerHasLabel (hd : String) : Bool :=
  (List.range hd.data.length).any (fun i => chPre pvLabel ((hd.data ++ pvLabel).drop i))

/-! ## Helper lemmas -/

theorem data_append (s t : String) : (s ++ t).data = s.data ++ t.data := rfl

theorem zipWith_sub_self (l : List ℚ) :
    List.zipWith (fun x y : ℚ => x - y) l l = List.replicate l.length 0 := by
  induction l with
  | nil => rfl
  | cons x xs ih => simp [ih, List.replicate_succ]

theorem mean_replicate_zero (n : ℕ) : mean (List.replicate n (0 : ℚ)) = 0 := by
  simp [mean]

theorem sampleVar_replicate_zero (n : ℕ) : sampleVar (List.replicate n (0 : ℚ)) = 0 := by
  simp [sampleVar, mean_replicate_zero]

theorem maArray_of_length_eq (a : MArr) (m : List Bool) (h : m.length = a.data.length) :
    maArray a m = Except.ok ⟨a.data, a.mask.zipWith or m⟩ := by
  simp [maArray, h]

theorem zipWith_or_absorb (m1 m2 : List Bool) :
    List.zipWith or m2 (List.zipWith or m1 m2) = List.zipWith or m1 m2 := by
  induction m1 generalizing m2 with
  | nil => cases m2 <;> rfl
  | cons a as ih =>
    cases m2 with
    | nil => rfl
    | cons b bs =>
      simp only [List.zipWith_cons_cons]
      rw [ih]
      congr 1
      cases a <;> cases b <;> rfl

theorem alignPair_of_length_eq (pre post : MArr) (hp : pre.wf) (hq : post.wf)
    (h : pre.data.length = post.data.length) :
    alignPair pre post
      = Except.ok (⟨pre.data, maskUnion pre.mask post.mask⟩,
                   ⟨post.data, maskUnion pre.mask post.mask⟩) := by
  have e1 : maArray pre post.mask
      = Except.ok ⟨pre.data, List.zipWith or pre.mask post.mask⟩ :=
    maArray_of_length_eq pre post.mask (by rw [hq]; exact h.symm)
  have e2 : maArray post (List.zipWith or pre.mask post.mask)
      = Except.ok ⟨post.data, List.zipWith or post.mask (List.zipWith or pre.mask post.mask)⟩ :=
    maArray_of_length_eq post _ (by rw [List.length_zipWith, hp, hq, h, min_self])
  unfold alignPair
  rw [e1]
  dsimp only
  rw [e2, zipWith_or_absorb]
  rfl

theorem compressed_union_eq_jointKeep (d : List ℚ) (m1 m2 : List Bool) :
    compressed ⟨d, maskUnion m1 m2⟩ = jointKeep d m1 m2 := by
  induction d generalizing m1 m2 with
  | nil => rfl
  | cons x xs ih =>
    cases m1 with
    | nil => rfl
    | cons a as =>
      cases m2 with
      | nil => rfl
      | cons b bs =>
        have ih' := ih as bs
        simp only [compressed, jointKeep, maskUnion, List.zipWith_cons_cons,
          List.zip_cons_cons, List.filterMap_cons] at ih' ⊢
        cases a <;> cases b <;> simp_all

theorem maskUnion_count_false (m1 m2 : List Bool) :
    (maskUnion m1 m2).count false = jointCount m1 m2 := by
  induction m1 generalizing m2 with
  | nil => cases m2 <;> rfl
  | cons a as ih =>
    cases m2 with
    | nil => rfl
    | cons b bs =>
      have ih' := ih bs
      simp only [maskUnion, jointCount, List.zipWith_cons_cons, List.zip_cons_cons,
        List.filter_cons] at ih' ⊢
      cases a <;> cases b <;> simp_all [List.count_cons]

theorem jointKeep_length (d : List ℚ) (m1 m2 : List Bool)
    (h1 : m1.length = d.length) (h2 : m2.length = d.length) :
    (jointKeep d m1 m2).length = jointCount m1 m2 := by
  induction d generalizing m1 m2 with
  | nil =>
    cases m1 with
    | cons a as => simp at h1
    | nil =>
      cases m2 with
      | cons b bs => simp at h2
      | nil => rfl
  | cons x xs ih =>
    cases m1 with
    | nil => simp at h1
    | cons a as =>
      cases m2 with
      | nil => simp at h2
      | cons b bs =>
        simp only [List.length_cons, Nat.succ.injEq] at h1 h2
        have ih' := ih as bs h1 h2
        simp only [jointKeep, jointCount, List.zip_cons_cons, List.filterMap_cons,
          List.filter_cons] at ih' ⊢
        cases a <;> cases b <;> simp_all

/-! ## C1: mask alignment is a symmetric union -/

/-- C1: for equal total length inputs, both re-masked series carry exactly
the union of the two original masks (a position is excluded from both series
precisely when it was invalid in either source), both compressed outputs are
the jointly valid values in original positional order, and both have length
equal to the count of jointly valid pixel positions. -/
theorem mask_alignment_symmetric_union (pre post : MArr) (hp : pre.wf) (hq : post.wf)
    (h : pre.data.length = post.data.length) :
    alignPair pre post
      = Except.ok (⟨pre.data, maskUnion pre.mask post.mask⟩,
                   ⟨post.data, maskUnion pre.mask post.mask⟩)
    ∧ compressed ⟨pre.data, maskUnion pre.mask post.mask⟩
        = jointKeep pre.data pre.mask post.mask
    ∧ compressed ⟨post.data, maskUnion pre.mask post.mask⟩
        = jointKeep post.data pre.mask post.mask
    ∧ (compressed ⟨pre.data, maskUnion pre.mask post.mask⟩).length
        = jointCount pre.mask post.mask
    ∧ (compressed ⟨post.data, maskUnion pre.mask post.mask⟩).length
        = jointCount pre.mask post.mask := by
  refine ⟨alignPair_of_length_eq pre post hp hq h,
    compressed_union_eq_jointKeep _ _ _, compressed_union_eq_jointKeep _ _ _, ?_, ?_⟩
  · rw [compressed_union_eq_jointKeep]
    exact jointKeep_length _ _ _ hp (hq.trans h.symm)
  · rw [compressed_union_eq_jointKeep]
    exact jointKeep_length _ _ _ (hp.trans h) hq

/-- Witness for `mask_alignment_symmetric_union` on the worked scenario of
the specification (sentinel in a different position of each raster). -/
theorem mask_alignment_symmetric_union_witness :
    MArr.wf ⟨[2, 3, 4], [true, false, false]⟩
    ∧ MArr.wf ⟨[5, 7, 9], [false, false, true]⟩
    ∧ (⟨[2, 3, 4], [true, false, false]⟩ : MArr).data.length
        = (⟨[5, 7, 9], [false, false, true]⟩ : MArr).data.length
    ∧ (alignPair ⟨[2, 3, 4], [true, false, false]⟩ ⟨[5, 7, 9], [false, false, true]⟩
        = Except.ok (⟨[2, 3, 4], maskUnion [true, false, false] [false, false, true]⟩,
                     ⟨[5, 7, 9], maskUnion [true, false, false] [false, false, true]⟩)
      ∧ compressed ⟨[2, 3, 4], maskUnion [true, false, false] [false, false, true]⟩
          = jointKeep [2, 3, 4] [true, false, false] [false, false, true]
      ∧ compressed ⟨[5, 7, 9], maskUnion [true, false, false] [false, false, true]⟩
          = jointKeep [5, 7, 9] [true, false, false] [false, false, true]
      ∧ (compressed ⟨[2, 3, 4], maskUnion [true, false, false] [false, false, true]⟩).length
          = jointCount [true, false, false] [false, false, true]
      ∧ (compressed ⟨[5, 7, 9], maskUnion [true, false, false] [false, false, true]⟩).length
          = jointCount [true, false, false] [false, false, true]) :=
  ⟨rfl, rfl, rfl,
    mask_alignment_symmetric_union ⟨[2, 3, 4], [true, false, false]⟩
      ⟨[5, 7, 9], [false, false, true]⟩ rfl rfl rfl⟩

/-! ## C10: both re-masking steps yield the union and the skip branch is dead -/

/-- C10: for loaded series of equal total length, the first re-masking step
(line 93) produces exactly the union mask, the second (line 94, fed the
already-updated first mask) produces the same union mask again, the two
post-alignment valid counts therefore coincide, and the count-mismatch
diagnostic branch of `Run` is unreachable. -/
theorem remask_union_skip_unreachable (sf : ℚ → ℚ → ℕ → ℚ) (cfg : Config)
    (d1 d2 : String) (pre post : MArr) (hp : pre.wf) (hq : post.wf)
    (h : pre.data.length = post.data.length) :
    maArray pre post.mask = Except.ok ⟨pre.data, maskUnion pre.mask post.mask⟩
    ∧ maArray post (maskUnion pre.mask post.mask)
        = Except.ok ⟨post.data, maskUnion pre.mask post.mask⟩
    ∧ countValid ⟨pre.data, maskUnion pre.mask post.mask⟩
        = countValid ⟨post.data, maskUnion pre.mask post.mask⟩
    ∧ isSkippedE (runAfterLoad sf cfg d1 d2 pre post) = false := by
  refine ⟨maArray_of_length_eq pre post.mask (by rw [hq]; exact h.symm), ?_, rfl, ?_⟩
  · have e2 := maArray_of_length_eq post (List.zipWith or pre.mask post.mask)
      (by rw [List.length_zipWith, hp, hq, h, min_self])
    rw [show (maskUnion pre.mask post.mask) = List.zipWith or pre.mask post.mask from rfl,
      e2, zipWith_or_absorb]
  · unfold runAfterLoad
    rw [alignPair_of_length_eq pre post hp hq h]
    dsimp only
    simp [runFromAligned, countValid, isSkippedE]

/-- Witness for `remask_union_skip_unreachable` at a concrete equal-length
pair. -/
theorem remask_union_skip_unreachable_witness :
    MArr.wf ⟨[2, 3], [true, false]⟩ ∧ MArr.wf ⟨[5, 7], [false, false]⟩
    ∧ (⟨[2, 3], [true, false]⟩ : MArr).data.length
        = (⟨[5, 7], [false, false]⟩ : MArr).data.length
    ∧ (maArray ⟨[2, 3], [true, false]⟩ (⟨[5, 7], [false, false]⟩ : MArr).mask
        = Except.ok ⟨[2, 3], maskUnion [true, false] [false, false]⟩
      ∧ maArray ⟨[5, 7], [false, false]⟩ (maskUnion [true, false] [false, false])
          = Except.ok ⟨[5, 7], maskUnion [true, false] [false, false]⟩
      ∧ countValid ⟨[2, 3], maskUnion [true, false] [false, false]⟩
          = countValid ⟨[5, 7], maskUnion [true, false] [false, false]⟩
      ∧ isSkippedE (runAfterLoad (fun _ _ _ => 0) ⟨"NDVI", "Adana_01", "out"⟩ "a" "b"
          ⟨[2, 3], [true, false]⟩ ⟨[5, 7], [false, false]⟩) = false) :=
  ⟨rfl, rfl, rfl,
    remask_union_skip_unreachable (fun _ _ _ => 0) ⟨"NDVI", "Adana_01", "out"⟩ "a" "b"
      ⟨[2, 3], [true, false]⟩ ⟨[5, 7], [false, false]⟩ rfl rfl rfl⟩

/-! ## C5: mismatched total pixel counts -/

theorem GetRasterDataN_data_length (r : RasterInput) :
    (GetRasterDataN r).data.length = r.raw.length := by
  simp [GetRasterDataN]

theorem GetRasterDataN_mask_of_clean (r : RasterInput) (h : hasSentinel r = false) :
    (GetRasterDataN r).mask = none := by
  unfold hasSentinel at h
  unfold GetRasterDataN shrinkMask
  rw [h]
  rfl

theorem GetRasterDataN_mask_of_sentinel (r : RasterInput) (h : hasSentinel r = true) :
    (GetRasterDataN r).mask = some (r.raw.map (fun x => decide (x = maskVal))) := by
  unfold hasSentinel at h
  unfold GetRasterDataN shrinkMask
  rw [h]
  rfl

theorem maArrayN_none (a : MArrN) : maArrayN a none = Except.ok a := rfl

theorem maArrayN_err (a : MArrN) (ml : List Bool)
    (h1 : ml.length ≠ a.data.length) (h2 : ml.length ≠ 1) :
    maArrayN a (some ml) = Except.error ⟨a.data.length, ml.length⟩ := by
  unfold maArrayN
  dsimp only
  rw [if_neg h1, if_neg h2]

theorem maArrayN_bcast (a : MArrN) (ml : List Bool)
    (h1 : ml.length ≠ a.data.length) (h2 : ml.length = 1) :
    maArrayN a (some ml) = Except.ok ⟨a.data,
      some (combineMask a.mask (List.replicate a.data.length (ml.headD false)))⟩ := by
  unfold maArrayN
  dsimp only
  rw [if_neg h1, if_pos h2]

theorem singleton_contains_true (l : List Bool) (h1 : l.length = 1)
    (h2 : l.contains true = true) : l = [true] := by
  cases l with
  | nil => simp at h1
  | cons b t =>
    cases t with
    | cons c u => simp at h1
    | nil =>
      cases b with
      | true => rfl
      | false => exact absurd h2 (by decide)

theorem countValidN_none (a : MArrN) (h : a.mask = none) :
    countValidN a = a.data.length := by
  unfold countValidN
  rw [h]

theorem countValidN_some (a : MArrN) (ml : List Bool) (h : a.mask = some ml) :
    countValidN a = ml.count false := by
  unfold countValidN
  rw [h]

theorem zip_filterMap_all_true : ∀ (d : List ℚ) (ml : List Bool), (∀ b ∈ ml, b = true) →
    (d.zip ml).filterMap (fun x => if x.2 then none else some x.1) = ([] : List ℚ) := by
  intro d
  induction d with
  | nil => intro ml _; rfl
  | cons x xs ih =>
    intro ml hall
    cases ml with
    | nil => rfl
    | cons b bs =>
      have hb : b = true := hall b (by simp)
      subst hb
      simpa [List.zip_cons_cons, List.filterMap_cons] using
        ih bs (fun c hc => hall c (by simp [hc]))

theorem compressedN_nil_of_all_true (a : MArrN) (ml : List Bool) (h : a.mask = some ml)
    (hall : ∀ b ∈ ml, b = true) : compressedN a = [] := by
  unfold compressedN
  rw [h]
  exact zip_filterMap_all_true a.data ml hall

theorem count_false_all_true (ml : List Bool) (hall : ∀ b ∈ ml, b = true) :
    ml.count false = 0 := by
  rw [List.count_eq_zero]
  intro hmem
  exact absurd (hall false hmem) (by decide)

theorem runFromAlignedN_all_masked (sf : ℚ → ℚ → ℕ → ℚ) (cfg : Config)
    (d1 d2 : String) (pre post : MArrN) (mp mq : List Bool)
    (hp : pre.mask = some mp) (hq : post.mask = some mq)
    (hallp : ∀ b ∈ mp, b = true) (hallq : ∀ b ∈ mq, b = true) :
    runFromAlignedN sf cfg d1 d2 pre post
      = RunOutcome.wrote (PairedT_Test sf cfg [] [] d1 d2).1
          ("\nThe outputs are written in:\n" ++ (PairedT_Test sf cfg [] [] d1 d2).2) := by
  unfold runFromAlignedN
  rw [countValidN_some _ _ hp, countValidN_some _ _ hq,
    count_false_all_true mp hallp, count_false_all_true mq hallq, if_pos rfl,
    compressedN_nil_of_all_true pre mp hp hallp, compressedN_nil_of_all_true post mq hq hallq]

/-- C5 (amended): when the two source rasters have different total pixel
counts, the run never silently truncates the longer series - the t-test
never receives a nonempty pair.  Which terminal behaviour occurs depends on
the masks: if neither raster contains a sentinel pixel, both masks shrink to
numpy's `nomask`, both re-masking calls skip their size check, and the run
terminates cleanly with the count-mismatch diagnostic (no error, no report);
otherwise a `MaskError` is raised at one of the two mask-alignment calls -
never before the alignment step is reached - except in the one corner where
the reference raster is a single sentinel pixel and the comparison raster is
sentinel-free, where the broadcast size-1 mask voids every pixel and a
report over two empty series is written. -/
theorem mismatched_length_nomask (sf : ℚ → ℚ → ℕ → ℚ) (cfg : Config)
    (ref lst : RasterInput) (h : ref.raw.length ≠ lst.raw.length) :
    failsBeforeAlign (RunN sf cfg ref lst) = false
    ∧ isSkippedE (RunN sf cfg ref lst) = (!hasSentinel ref && !hasSentinel lst)
    ∧ isWroteE (RunN sf cfg ref lst)
        = (hasSentinel ref && decide (ref.raw.length = 1) && !hasSentinel lst)
    ∧ alignStageFailed (RunN sf cfg ref lst)
        = !((!hasSentinel ref && !hasSentinel lst)
            || (hasSentinel ref && decide (ref.raw.length = 1) && !hasSentinel lst))
    ∧ (hasSentinel ref = true → ref.raw.length = 1 → hasSentinel lst = false →
        RunN sf cfg ref lst = Except.ok (RunOutcome.wrote
          (PairedT_Test sf cfg [] [] ref.date lst.date).1
          ("\nThe outputs are written in:\n"
            ++ (PairedT_Test sf cfg [] [] ref.date lst.date).2))) := by
  have hdr := GetRasterDataN_data_length ref
  have hdl := GetRasterDataN_data_length lst
  have hlenr : (ref.raw.map (fun x => decide (x = maskVal))).length = ref.raw.length :=
    List.length_map _ _
  have hlenl : (lst.raw.map (fun x => decide (x = maskVal))).length = lst.raw.length :=
    List.length_map _ _
  cases hr : hasSentinel ref with
  | false =>
    cases hl : hasSentinel lst with
    | false =>
      have hrun : RunN sf cfg ref lst = Except.ok (RunOutcome.skipped lengthDiag) := by
        unfold RunN runAfterLoadN alignPairN
        rw [GetRasterDataN_mask_of_clean lst hl, maArrayN_none]
        dsimp only
        rw [GetRasterDataN_mask_of_clean ref hr, maArrayN_none]
        dsimp only
        unfold runFromAlignedN
        rw [if_neg (by
          rw [countValidN_none _ (GetRasterDataN_mask_of_clean ref hr),
            countValidN_none _ (GetRasterDataN_mask_of_clean lst hl), hdr, hdl]
          exact h)]
      refine ⟨by simp [failsBeforeAlign, hrun], by simp [isSkippedE, hrun, hr, hl],
        by simp [isWroteE, hrun, hr], by simp [alignStageFailed, hrun, hr, hl], ?_⟩
      intro h1 _ _
      exact absurd h1 (by simp [hr])
    | true =>
      have hrun : ∃ e, RunN sf cfg ref lst = Except.error ⟨Stage.atAlign, e⟩ := by
        unfold RunN runAfterLoadN alignPairN
        rw [GetRasterDataN_mask_of_sentinel lst hl]
        by_cases hm1 : lst.raw.length = 1
        · rw [maArrayN_bcast _ _ (by rw [hlenl, hdr]; omega) (by rw [hlenl]; exact hm1)]
          dsimp only
          rw [GetRasterDataN_mask_of_clean ref hr]
          dsimp only [combineMask]
          rw [maArrayN_err _ _ (by rw [List.length_replicate, hdr, hdl]; omega)
            (by rw [List.length_replicate, hdr]; omega)]
          exact ⟨_, rfl⟩
        · rw [maArrayN_err _ _ (by rw [hlenl, hdr]; omega) (by rw [hlenl]; exact hm1)]
          exact ⟨_, rfl⟩
      obtain ⟨e, hrun⟩ := hrun
      refine ⟨by simp [failsBeforeAlign, hrun], by simp [isSkippedE, hrun, hr, hl],
        by simp [isWroteE, hrun, hr], by simp [alignStageFailed, hrun, hr, hl], ?_⟩
      intro h1 _ _
      exact absurd h1 (by simp [hr])
  | true =>
    cases hl : hasSentinel lst with
    | false =>
      by_cases hn1 : ref.raw.length = 1
      · have hmr : (ref.raw.map (fun x => decide (x = maskVal))) = [true] :=
          singleton_contains_true _ (by rw [hlenr]; exact hn1)
            (by unfold hasSentinel at hr; exact hr)
        have hrun : RunN sf cfg ref lst = Except.ok (RunOutcome.wrote
            (PairedT_Test sf cfg [] [] ref.date lst.date).1
            ("\nThe outputs are written in:\n"
              ++ (PairedT_Test sf cfg [] [] ref.date lst.date).2)) := by
          unfold RunN runAfterLoadN alignPairN
          rw [GetRasterDataN_mask_of_clean lst hl, maArrayN_none]
          dsimp only
          rw [GetRasterDataN_mask_of_sentinel ref hr,
            maArrayN_bcast _ _ (by rw [hlenr, hdl]; omega) (by rw [hlenr]; exact hn1)]
          dsimp only
          refine congrArg Except.ok (runFromAlignedN_all_masked sf cfg ref.date lst.date
            _ _ _ _ (GetRasterDataN_mask_of_sentinel ref hr) rfl ?_ ?_)
          · rw [hmr]
            intro b hb
            simpa using hb
          · rw [GetRasterDataN_mask_of_clean lst hl]
            dsimp only [combineMask]
            rw [hmr]
            intro b hb
            exact List.eq_of_mem_replicate hb
        refine ⟨by simp [failsBeforeAlign, hrun], by simp [isSkippedE, hrun, hr, hl],
          by simp [isWroteE, hrun, hr, hl, hn1],
          by simp [alignStageFailed, hrun, hr, hl, hn1], fun _ _ _ => hrun⟩
      · have hrun : ∃ e, RunN sf cfg ref lst = Except.error ⟨Stage.atAlign, e⟩ := by
          unfold RunN runAfterLoadN alignPairN
          rw [GetRasterDataN_mask_of_clean lst hl, maArrayN_none]
          dsimp only
          rw [GetRasterDataN_mask_of_sentinel ref hr,
            maArrayN_err _ _ (by rw [hlenr, hdl]; omega) (by rw [hlenr]; exact hn1)]
          exact ⟨_, rfl⟩
        obtain ⟨e, hrun⟩ := hrun
        refine ⟨by simp [failsBeforeAlign, hrun], by simp [isSkippedE, hrun, hr, hl],
          by simp [isWroteE, hrun, hr, hl, hn1],
          by simp [alignStageFailed, hrun, hr, hl, hn1], ?_⟩
        intro _ h2 _
        exact absurd h2 hn1
    | true =>
      have hrun : ∃ e, RunN sf cfg ref lst = Except.error ⟨Stage.atAlign, e⟩ := by
        unfold RunN runAfterLoadN alignPairN
        rw [GetRasterDataN_mask_of_sentinel lst hl]
        by_cases hm1 : lst.raw.length = 1
        · rw [maArrayN_bcast _ _ (by rw [hlenl, hdr]; omega) (by rw [hlenl]; exact hm1)]
          dsimp only
          rw [GetRasterDataN_mask_of_sentinel ref hr]
          dsimp only [combineMask]
          rw [maArrayN_err _ _
            (by rw [List.length_zipWith, hlenr, List.length_replicate, hdr, min_self, hdl]
                omega)
            (by rw [List.length_zipWith, hlenr, List.length_replicate, hdr, min_self]
                omega)]
          exact ⟨_, rfl⟩
        · rw [maArrayN_err _ _ (by rw [hlenl, hdr]; omega) (by rw [hlenl]; exact hm1)]
          exact ⟨_, rfl⟩
      obtain ⟨e, hrun⟩ := hrun
      refine ⟨by simp [failsBeforeAlign, hrun], by simp [isSkippedE, hrun, hr, hl],
        by simp [isWroteE, hrun, hr, hl], by simp [alignStageFailed, hrun, hr, hl], ?_⟩
      intro _ _ h3
      exact absurd h3 (by simp [hl])

/-- Witness for `mismatched_length_nomask` at sentinel-free rasters of 2 and
3 pixels (the clean diagnostic-skip case). -/
theorem mismatched_length_nomask_witness :
    (RasterInput.mk [1, 2] 1 "a").raw.length ≠ (RasterInput.mk [1, 2, 3] 1 "b").raw.length
    ∧ (failsBeforeAlign (RunN (fun _ _ _ => 0) ⟨"NDVI", "Adana_01", "out"⟩
          ⟨[1, 2], 1, "a"⟩ ⟨[1, 2, 3], 1, "b"⟩) = false
      ∧ isSkippedE (RunN (fun _ _ _ => 0) ⟨"NDVI", "Adana_01", "out"⟩
            ⟨[1, 2], 1, "a"⟩ ⟨[1, 2, 3], 1, "b"⟩)
          = (!hasSentinel ⟨[1, 2], 1, "a"⟩ && !hasSentinel ⟨[1, 2, 3], 1, "b"⟩)
      ∧ isWroteE (RunN (fun _ _ _ => 0) ⟨"NDVI", "Adana_01", "out"⟩
            ⟨[1, 2], 1, "a"⟩ ⟨[1, 2, 3], 1, "b"⟩)
          = (hasSentinel ⟨[1, 2], 1, "a"⟩
              && decide ((RasterInput.mk [1, 2] 1 "a").raw.length = 1)
              && !hasSentinel ⟨[1, 2, 3], 1, "b"⟩)
      ∧ alignStageFailed (RunN (fun _ _ _ => 0) ⟨"NDVI", "Adana_01", "out"⟩
            ⟨[1, 2], 1, "a"⟩ ⟨[1, 2, 3], 1, "b"⟩)
          = !((!hasSentinel ⟨[1, 2], 1, "a"⟩ && !hasSentinel ⟨[1, 2, 3], 1, "b"⟩)
              || (hasSentinel ⟨[1, 2], 1, "a"⟩
                  && decide ((RasterInput.mk [1, 2] 1 "a").raw.length = 1)
                  && !hasSentinel ⟨[1, 2, 3], 1, "b"⟩))
      ∧ (hasSentinel ⟨[1, 2], 1, "a"⟩ = true → (RasterInput.mk [1, 2] 1 "a").raw.length = 1 →
          hasSentinel ⟨[1, 2, 3], 1, "b"⟩ = false →
          RunN (fun _ _ _ => 0) ⟨"NDVI", "Adana_01", "out"⟩ ⟨[1, 2], 1, "a"⟩ ⟨[1, 2, 3], 1, "b"⟩
            = Except.ok (RunOutcome.wrote
              (PairedT_Test (fun _ _ _ => 0) ⟨"NDVI", "Adana_01", "out"⟩ [] [] "a" "b").1
              ("\nThe outputs are written in:\n"
                ++ (PairedT_Test (fun _ _ _ => 0) ⟨"NDVI", "Adana_01", "out"⟩ [] [] "a" "b").2)))) :=
  ⟨by decide, mismatched_length_nomask (fun _ _ _ => 0) ⟨"NDVI", "Adana_01", "out"⟩
    ⟨[1, 2], 1, "a"⟩ ⟨[1, 2, 3], 1, "b"⟩ (by decide)⟩

/-! ## C6: count mismatch is a clean diagnostic skip -/

/-- C6: whenever the post-alignment valid-element counts of the two series
differ, `Run` takes the `else` branch of source lines 104-106: it prints the
diagnostic sentence on standard output, does not run the test, creates no
report file, and terminates as a normal (non-error) outcome. -/
theorem count_mismatch_skips (sf : ℚ → ℚ → ℕ → ℚ) (cfg : Config) (d1 d2 : String)
    (pre post : MArr) (h : countValid pre ≠ countValid post) :
    runFromAligned sf cfg d1 d2 pre post = RunOutcome.skipped lengthDiag := by
  simp [runFromAligned, h]

/-- Witness for `count_mismatch_skips` at a concrete mismatching pair. -/
theorem count_mismatch_skips_witness :
    countValid ⟨[1], [false]⟩ ≠ countValid ⟨[1, 2], [false, false]⟩
    ∧ runFromAligned (fun _ _ _ => 0) ⟨"NDVI", "Adana_01", "out"⟩ "d1" "d2"
        ⟨[1], [false]⟩ ⟨[1, 2], [false, false]⟩ = RunOutcome.skipped lengthDiag :=
  ⟨by decide, count_mismatch_skips (fun _ _ _ => 0) ⟨"NDVI", "Adana_01", "out"⟩ "d1" "d2"
    ⟨[1], [false]⟩ ⟨[1, 2], [false, false]⟩ (by decide)⟩

/-! ## C7: report path -/

/-- C7: the report is written to exactly
`<output_dir>/Paired-t-test_results_<variable>-values_<area>.txt`, built from
the raw (unmodified) variable name token (spaces included), opened in
overwrite mode with UTF-8 encoding, and this full path is what
`PairedT_Test` returns (for an output directory that is nonempty and does
not already end in the separator). -/
theorem report_path_raw_variable (sf : ℚ → ℚ → ℕ → ℚ) (cfg : Config)
    (pre_arr post_arr : List ℚ) (d1 d2 : String)
    (h1 : cfg.outdir ≠ "") (h2 : strEnds cfg.outdir "/" = false) :
    (PairedT_Test sf cfg pre_arr post_arr d1 d2).1.path
        = cfg.outdir ++ "/" ++ fileName cfg.var cfg.area
    ∧ fileName cfg.var cfg.area
        = "Paired-t-test_results_" ++ cfg.var ++ "-values_" ++ cfg.area ++ ".txt"
    ∧ (PairedT_Test sf cfg pre_arr post_arr d1 d2).1.mode = WriteMode.overwrite
    ∧ (PairedT_Test sf cfg pre_arr post_arr d1 d2).1.encoding = TextEncoding.utf8
    ∧ (PairedT_Test sf cfg pre_arr post_arr d1 d2).2
        = (PairedT_Test sf cfg pre_arr post_arr d1 d2).1.path := by
  refine ⟨?_, rfl, rfl, rfl, rfl⟩
  simp [PairedT_Test, pathJoin, h1, h2]

/-- Witness for `report_path_raw_variable` with a variable name containing a
space. -/
theorem report_path_raw_variable_witness :
    ("out" : String) ≠ "" ∧ strEnds "out" "/" = false
    ∧ ((PairedT_Test (fun _ _ _ => 0) ⟨"Soil Moisture", "Adana_01", "out"⟩ [1, 2] [3, 4] "a" "b").1.path
        = "out" ++ "/" ++ fileName "Soil Moisture" "Adana_01"
      ∧ fileName "Soil Moisture" "Adana_01"
        = "Paired-t-test_results_" ++ "Soil Moisture" ++ "-values_" ++ "Adana_01" ++ ".txt"
      ∧ (PairedT_Test (fun _ _ _ => 0) ⟨"Soil Moisture", "Adana_01", "out"⟩ [1, 2] [3, 4] "a" "b").1.mode = WriteMode.overwrite
      ∧ (PairedT_Test (fun _ _ _ => 0) ⟨"Soil Moisture", "Adana_01", "out"⟩ [1, 2] [3, 4] "a" "b").1.encoding = TextEncoding.utf8
      ∧ (PairedT_Test (fun _ _ _ => 0) ⟨"Soil Moisture", "Adana_01", "out"⟩ [1, 2] [3, 4] "a" "b").2
        = (PairedT_Test (fun _ _ _ => 0) ⟨"Soil Moisture", "Adana_01", "out"⟩ [1, 2] [3, 4] "a" "b").1.path) :=
  ⟨by decide, by decide,
    report_path_raw_variable (fun _ _ _ => 0) ⟨"Soil Moisture", "Adana_01", "out"⟩
      [1, 2] [3, 4] "a" "b" (by decide) (by decide)⟩

/-! ## C8: loading is linear in the scale factor -/

theorem getRaster_compressed_scale (raw : List ℚ) (k : ℚ) (d1 d2 : String) :
    compressed (GetRasterData ⟨raw, k, d1⟩)
      = (compressed (GetRasterData ⟨raw, 1, d2⟩)).map (fun x => k * x) := by
  induction raw with
  | nil => rfl
  | cons x xs ih =>
    by_cases h : x = maskVal
    · simpa [compressed, GetRasterData, h] using ih
    · simp only [compressed, GetRasterData, List.map_cons, List.zip_cons_cons,
        List.filterMap_cons] at ih ⊢
      simp only [decide_eq_true_eq] at ih ⊢
      rw [if_neg h, if_neg h]
      simp only [List.map_cons]
      rw [ih]
      congr 1
      ring

/-- C8: the validity mask is decided on the raw values (sentinel compared
before any scaling), so it does not depend on the scale factor, and the
loaded series of valid values with factor `k` is `k` times the series of the
factor-1 case. -/
theorem scale_factor_linear (raw : List ℚ) (k : ℚ) (d1 d2 : String) (_hk : 0 < k) :
    (GetRasterData ⟨raw, k, d1⟩).mask = (GetRasterData ⟨raw, 1, d2⟩).mask
    ∧ compressed (GetRasterData ⟨raw, k, d1⟩)
        = (compressed (GetRasterData ⟨raw, 1, d2⟩)).map (fun x => k * x) :=
  ⟨rfl, getRaster_compressed_scale raw k d1 d2⟩

/-- Witness for `scale_factor_linear` at factor 2 on a raster containing the
sentinel. -/
theorem scale_factor_linear_witness :
    (0 : ℚ) < 2
    ∧ ((GetRasterData ⟨[-1000, 3, 7], 2, "x"⟩).mask = (GetRasterData ⟨[-1000, 3, 7], 1, "y"⟩).mask
      ∧ compressed (GetRasterData ⟨[-1000, 3, 7], 2, "x"⟩)
          = (compressed (GetRasterData ⟨[-1000, 3, 7], 1, "y"⟩)).map (fun x => 2 * x)) :=
  ⟨by norm_num, scale_factor_linear [-1000, 3, 7] 2 "x" "y" (by norm_num)⟩

/-! ## C3: behaviour on fewer than two pairs -/

/-- C3 (amended): for a paired input with fewer than 2 elements per sequence
the test does not fail with any error: `scipy.stats.ttest_rel` yields NaN for
both the statistic and the p-value (the source has no
`InsufficientSampleError` and catches nothing). -/
theorem small_sample_returns_nan (a b : List ℚ) (sf : ℚ → ℚ → ℕ → ℚ) (df : ℕ)
    (hlen : a.length = b.length) (hsmall : a.length < 2) :
    tStatistic a b = TStat.nan ∧ pValue sf df (tStatistic a b) = PVal.nan := by
  have hd : (List.zipWith (fun x y : ℚ => x - y) a b).length < 2 := by
    rw [List.length_zipWith]
    omega
  have h1 : tStatistic a b = TStat.nan := by
    unfold tStatistic
    rw [if_pos hd]
  exact ⟨h1, by rw [h1]; rfl⟩

/-- Witness for `small_sample_returns_nan` on singleton sequences. -/
theorem small_sample_returns_nan_witness :
    ([(5 : ℚ)].length = [(3 : ℚ)].length) ∧ ([(5 : ℚ)].length < 2)
    ∧ (tStatistic [(5 : ℚ)] [3] = TStat.nan
      ∧ pValue (fun _ _ _ => 0) 0 (tStatistic [(5 : ℚ)] [3]) = PVal.nan) :=
  ⟨by decide, by decide, small_sample_returns_nan [5] [3] (fun _ _ _ => 0) 0 (by decide) (by decide)⟩

/-! ## C4: behaviour on identical sequences -/

/-- C4 (amended): for two identical sequences the paired differences are all
zero, the ddof-1 variance is zero, and `scipy.stats.ttest_rel` computes the
degenerate `0/0`: the t statistic and the p-value are both NaN (not 0 and 1). -/
theorem ttest_identical_nan (l : List ℚ) (sf : ℚ → ℚ → ℕ → ℚ) (df : ℕ) :
    tStatistic l l = TStat.nan ∧ pValue sf df (tStatistic l l) = PVal.nan := by
  have h1 : tStatistic l l = TStat.nan := by
    unfold tStatistic
    rw [zipWith_sub_self l]
    by_cases hn : (List.replicate l.length (0 : ℚ)).length < 2
    · rw [if_pos hn]
    · rw [if_neg hn, if_pos (sampleVar_replicate_zero l.length),
        if_pos (mean_replicate_zero l.length)]
  exact ⟨h1, by rw [h1]; rfl⟩

/-! ## C9: round-trip of the p-value through the report text -/

theorem pvLabel_eq : ("P-value: " : String).data = pvLabel := rfl

theorem chPre_self_append (p r : List Char) : chPre p (p ++ r) = true := by
  induction p with
  | nil => rfl
  | cons a as ih => simp [chPre, ih]

theorem chPre_append_of_le (p l r : List Char) (h : p.length ≤ l.length) :
    chPre p (l ++ r) = chPre p l := by
  induction p generalizing l with
  | nil => rfl
  | cons a as ih =>
    cases l with
    | nil => simp at h
    | cons b bs =>
      show (a == b && chPre as (bs ++ r)) = (a == b && chPre as bs)
      rw [ih bs (by simpa using h)]

theorem findPValue_cons_pos (c : Char) (cs : List Char)
    (h : chPre pvLabel (c :: cs) = true) :
    findPValue (c :: cs)
      = some (((c :: cs).drop pvLabel.length).takeWhile (fun ch => ch != '\n')) := by
  simp [findPValue, h]

theorem findPValue_cons_neg (c : Char) (cs : List Char)
    (h : chPre pvLabel (c :: cs) = false) :
    findPValue (c :: cs) = findPValue cs := by
  simp [findPValue, h]

theorem findPValue_label (R : List Char) :
    findPValue (pvLabel ++ R) = some (R.takeWhile (fun ch => ch != '\n')) := by
  have h2 := findPValue_cons_pos 'P' (['-', 'v', 'a', 'l', 'u', 'e', ':', ' '] ++ R)
    (chPre_self_append pvLabel R)
  rw [show pvLabel ++ R = 'P' :: (['-', 'v', 'a', 'l', 'u', 'e', ':', ' '] ++ R) from rfl]
  rw [h2]
  rfl

theorem findPValue_append (H R : List Char)
    (h : ∀ i, i < H.length → chPre pvLabel ((H ++ pvLabel).drop i) = false) :
    findPValue (H ++ (pvLabel ++ R)) = some (R.takeWhile (fun ch => ch != '\n')) := by
  induction H with
  | nil => simpa using findPValue_label R
  | cons c cs ih =>
    have hx := h 0 (by simp)
    have h0 : chPre pvLabel (c :: (cs ++ (pvLabel ++ R))) = false := by
      rw [show c :: (cs ++ (pvLabel ++ R)) = (c :: (cs ++ pvLabel)) ++ R by simp]
      rw [chPre_append_of_le _ _ _ (by simp; omega)]
      simpa using hx
    rw [show (c :: cs) ++ (pvLabel ++ R) = c :: (cs ++ (pvLabel ++ R)) from rfl]
    rw [findPValue_cons_neg _ _ h0]
    apply ih
    intro i hi
    have := h (i + 1) (by simpa using Nat.succ_lt_succ hi)
    simpa using this

theorem takeWhile_append_stop (p : Char → Bool) (F : List Char) (x : Char) (T : List Char)
    (hF : ∀ c ∈ F, p c = true) (hx : p x = false) :
    (F ++ x :: T).takeWhile p = F := by
  induction F with
  | nil => simp [List.takeWhile_cons, hx]
  | cons a as ih =>
    have ha := hF a (by simp)
    simp [List.takeWhile_cons, ha, ih (fun c hc => hF c (by simp [hc]))]

theorem dropWhile_append_stop (p : Char → Bool) (F : List Char) (x : Char) (T : List Char)
    (hF : ∀ c ∈ F, p c = true) (hx : p x = false) :
    (F ++ x :: T).dropWhile p = x :: T := by
  induction F with
  | nil => simp [List.dropWhile_cons, hx]
  | cons a as ih =>
    have ha := hF a (by simp)
    simp [List.dropWhile_cons, ha, ih (fun c hc => hF c (by simp [hc]))]

theorem charDigit_digitChar : ∀ d, d < 10 → charDigit? (digitChar d) = some d := by decide

theorem digitChar_props : ∀ d, d < 10 →
    ((digitChar d != '\n') = true ∧ (digitChar d != '.') = true) := by decide

theorem mem_natDigits (n : ℕ) : ∀ c ∈ natDigits n, ∃ d, d < 10 ∧ c = digitChar d := by
  induction n using Nat.strong_induction_on with
  | _ n ih =>
    rw [natDigits]
    split
    next h =>
      intro c hc
      simp only [List.mem_singleton] at hc
      exact ⟨n, h, hc⟩
    next h =>
      intro c hc
      rw [List.mem_append] at hc
      rcases hc with hc | hc
      · exact ih (n / 10) (Nat.div_lt_self (by omega) (by omega)) c hc
      · simp only [List.mem_singleton] at hc
        exact ⟨n % 10, Nat.mod_lt _ (by omega), hc⟩

theorem natDigits_ne_nil (n : ℕ) : natDigits n ≠ [] := by
  rw [natDigits]
  split
  · simp
  · simp

theorem digitsVal_append (xs ys : List Char) (acc : ℕ) :
    digitsVal (xs ++ ys) acc = (digitsVal xs acc).bind (fun a => digitsVal ys a) := by
  induction xs generalizing acc with
  | nil => rfl
  | cons c cs ih =>
    simp only [List.cons_append, digitsVal]
    cases h : charDigit? c with
    | none => rfl
    | some d => exact ih _

theorem digitsVal_natDigits (n : ℕ) :
    ∀ acc, digitsVal (natDigits n) acc = some (acc * 10 ^ (natDigits n).length + n) := by
  induction n using Nat.strong_induction_on with
  | _ n ih =>
    intro acc
    rw [natDigits]
    split
    next h =>
      simp [digitsVal, charDigit_digitChar n h]
    next h =>
      rw [digitsVal_append, ih (n / 10) (Nat.div_lt_self (by omega) (by omega)) acc]
      have hmod : charDigit? (digitChar (n % 10)) = some (n % 10) :=
        charDigit_digitChar (n % 10) (Nat.mod_lt _ (by omega))
      show digitsVal [digitChar (n % 10)] (acc * 10 ^ (natDigits (n / 10)).length + n / 10)
          = some (acc * 10 ^ (natDigits (n / 10) ++ [digitChar (n % 10)]).length + n)
      simp only [digitsVal, hmod, List.length_append, List.length_singleton]
      congr 1
      have hdm := Nat.div_add_mod n 10
      calc (acc * 10 ^ (natDigits (n / 10)).length + n / 10) * 10 + n % 10
          = acc * (10 ^ (natDigits (n / 10)).length * 10) + (10 * (n / 10) + n % 10) := by ring
        _ = acc * 10 ^ ((natDigits (n / 10)).length + 1) + n := by rw [hdm, pow_succ]

theorem digitsToNat_natDigits (n : ℕ) : digitsToNat (natDigits n) = some n := by
  have h := digitsVal_natDigits n 0
  cases hnd : natDigits n with
  | nil => exact absurd hnd (natDigits_ne_nil n)
  | cons c cs =>
    rw [hnd] at h
    simpa [digitsToNat] using h

theorem digitsVal_replicate_zero (k : ℕ) :
    digitsVal (List.replicate k '0') 0 = some 0 := by
  induction k with
  | zero => rfl
  | succ k' ih => simpa [List.replicate_succ, digitsVal, charDigit?] using ih

theorem digitsToNat_zeros_append (k m : ℕ) :
    digitsToNat (List.replicate k '0' ++ natDigits m) = some m := by
  cases k with
  | zero => simpa using digitsToNat_natDigits m
  | succ k' =>
    have h : digitsVal (List.replicate (k' + 1) '0' ++ natDigits m) 0 = some m := by
      rw [digitsVal_append, digitsVal_replicate_zero]
      simpa using digitsVal_natDigits m 0
    simpa [digitsToNat, List.replicate_succ] using h

theorem digitsToNat_pad4 (m : ℕ) : digitsToNat (pad4 (natDigits m)) = some m :=
  digitsToNat_zeros_append _ m

theorem natDigits_length_le (k : ℕ) : ∀ m, m < 10 ^ (k + 1) → (natDigits m).length ≤ k + 1 := by
  induction k with
  | zero =>
    intro m hm
    rw [natDigits]
    split
    · simp
    · omega
  | succ k' ih =>
    intro m hm
    rw [natDigits]
    split
    · simp
    next h =>
      rw [List.length_append, List.length_singleton]
      have hdiv : m / 10 < 10 ^ (k' + 1) := by
        rw [Nat.div_lt_iff_lt_mul (by norm_num)]
        calc m < 10 ^ (k' + 1 + 1) := hm
          _ = 10 ^ (k' + 1) * 10 := by rw [pow_succ]
      have := ih (m / 10) hdiv
      omega

theorem pad4_length_of_le (l : List Char) (h : l.length ≤ 4) : (pad4 l).length = 4 := by
  simp only [pad4, List.length_append, List.length_replicate]
  omega

theorem natDigits_no_nl_no_dot (n : ℕ) :
    ∀ c ∈ natDigits n, (c != '\n') = true ∧ (c != '.') = true := by
  intro c hc
  obtain ⟨d, hd, rfl⟩ := mem_natDigits n c hc
  exact digitChar_props d hd

theorem fmt4_data (q : ℚ) :
    (fmt4 q).data = natDigits ((rhe (q * 10000)).toNat / 10000)
      ++ '.' :: pad4 (natDigits ((rhe (q * 10000)).toNat % 10000)) := rfl

theorem pad4_no_nl (m : ℕ) : ∀ c ∈ pad4 (natDigits m), (c != '\n') = true := by
  intro c hc
  simp only [pad4, List.mem_append, List.mem_replicate] at hc
  rcases hc with hc | hc
  · rw [hc.2]; rfl
  · exact (natDigits_no_nl_no_dot m c hc).1

theorem fmt4_no_nl (q : ℚ) : ∀ c ∈ (fmt4 q).data, (c != '\n') = true := by
  intro c hc
  rw [fmt4_data] at hc
  simp only [List.mem_append, List.mem_cons] at hc
  rcases hc with hc | hc | hc
  · exact (natDigits_no_nl_no_dot _ c hc).1
  · rw [hc]; rfl
  · exact pad4_no_nl _ c hc

theorem rhe_nonneg (q : ℚ) (h : 0 ≤ q) : 0 ≤ rhe q := by
  have hf : (0 : ℤ) ≤ ⌊q⌋ := Int.floor_nonneg.mpr h
  unfold rhe
  dsimp only
  split_ifs <;> omega

theorem parseDec_fmt4 (q : ℚ) (hq : 0 ≤ q) : parseDec (fmt4 q).data = some (round4 q) := by
  have hno : ∀ c ∈ natDigits ((rhe (q * 10000)).toNat / 10000), ((fun c => c != '.') c) = true :=
    fun c hc => (natDigits_no_nl_no_dot _ c hc).2
  have hdot : ((fun c => c != '.') '.') = false := rfl
  rw [fmt4_data]
  unfold parseDec
  rw [takeWhile_append_stop _ _ _ _ hno hdot, dropWhile_append_stop _ _ _ _ hno hdot]
  simp only [digitsToNat_natDigits, digitsToNat_pad4]
  have hlen : (pad4 (natDigits ((rhe (q * 10000)).toNat % 10000))).length = 4 := by
    apply pad4_length_of_le
    exact natDigits_length_le 3 _ (by
      have := Nat.mod_lt ((rhe (q * 10000)).toNat) (y := 10000) (by norm_num)
      norm_num
      omega)
  rw [hlen]
  set n := (rhe (q * 10000)).toNat with hn
  have hzn : ((n : ℤ)) = rhe (q * 10000) :=
    Int.toNat_of_nonneg (rhe_nonneg _ (mul_nonneg hq (by norm_num)))
  have hnn : ((n : ℚ)) = ((rhe (q * 10000) : ℤ) : ℚ) := by rw [← hzn]; norm_cast
  have key : ((n / 10000 : ℕ) : ℚ) + ((n % 10000 : ℕ) : ℚ) / 10 ^ 4 = (n : ℚ) / 10000 := by
    rw [show ((n : ℚ)) = ((10000 * (n / 10000) + n % 10000 : ℕ) : ℚ) by rw [Nat.div_add_mod]]
    push_cast
    ring
  rw [round4, ← hnn, key]

theorem headerHasLabel_false (hs : String) (h : headerHasLabel hs = false) :
    ∀ i, i < hs.data.length → chPre pvLabel ((hs.data ++ pvLabel).drop i) = false := by
  intro i hi
  unfold headerHasLabel at h
  rw [List.any_eq_false] at h
  have := h i (by simpa using hi)
  simpa using this

theorem newline_data : ("\n" : String).data = ['\n'] := rfl

/-- C9: formatting a `TestResult` into the report text and re-parsing the
p-value field back out of the text yields the original p-value rounded to 4
decimal places, for any nonnegative p-value and any metadata whose header
does not itself contain the `P-value: ` label. -/
theorem pvalue_roundtrip (var area d1 d2 : String) (r : TestResult) (hp : 0 ≤ r.pval)
    (hocc : headerHasLabel (headerText var area d1 d2) = false) :
    parsePValue (formatTestResult var area d1 d2 r) = some (round4 r.pval) := by
  have hdata : (formatTestResult var area d1 d2 r).data
      = (headerText var area d1 d2).data
        ++ (pvLabel ++ ((fmt4 r.pval).data ++ '\n' ::
          ("T-value: " ++ ratStr r.tstat ++ "\n\n"
            ++ "Average " ++ var ++ " of the Reference Date: " ++ ratStr r.mean_pre ++ "\n"
            ++ "Average " ++ var ++ " of the Last Date     : " ++ ratStr r.mean_post ++ "\n\n"
            ++ noteText var (PVal.val r.pval)).data)) := by
    simp only [formatTestResult, reportText, data_append, List.append_assoc, pvLabel_eq,
      newline_data, List.singleton_append]
    rfl
  unfold parsePValue
  rw [hdata, findPValue_append _ _ (headerHasLabel_false _ hocc),
    takeWhile_append_stop (fun ch => ch != '\n') (fmt4 r.pval).data '\n' _
      (fmt4_no_nl r.pval) rfl]
  exact parseDec_fmt4 r.pval hp

set_option maxRecDepth 100000 in
/-- Witness for `pvalue_roundtrip` at the program's own metadata and
`p = 1/3` (which formats as `0.3333`). -/
theorem pvalue_roundtrip_witness :
    (0 : ℚ) ≤ 1 / 3
    ∧ headerHasLabel (headerText "NDVI" "Adana_01" "Jul 24 2021" "Jul 28 2024") = false
    ∧ parsePValue (formatTestResult "NDVI" "Adana_01" "Jul 24 2021" "Jul 28 2024" ⟨1, 1 / 3, 2, 3⟩)
        = some (round4 (1 / 3)) :=
  ⟨by norm_num, by decide,
    pvalue_roundtrip "NDVI" "Adana_01" "Jul 24 2021" "Jul 28 2024" ⟨1, 1 / 3, 2, 3⟩
      (by norm_num) (by decide)⟩

/-! ## Concrete evaluations of the code at the claimed failing inputs.
The `Rat` arithmetic operations of Batteries are sealed `irreducible`; they
are made semireducible locally so that `decide` can evaluate the model on
concrete rational inputs. -/

section ConcreteEvaluations

attribute [local semireducible] Rat.add Rat.mul Rat.sub Rat.inv

/-- C2 (bug evaluation): with variable name `NDVI` and a non-significant
p-value, the interpretation sentence the code emits contains the literal
characters `\x7bself.var\x7d` (the continuation string of the else branch is
missing its `f` prefix at source line 60) and does not mention the variable
name at all, while the significant branch does interpolate it. -/
theorem note_nonsignificant_literal :
    noteText "NDVI" (PVal.val (1 / 2))
      = "NOTE: There is NOT statistically significant difference between the \x7bself.var\x7d values of two groups."
    ∧ occursIn "NDVI".data (noteText "NDVI" (PVal.val (1 / 2))).data = false
    ∧ noteText "NDVI" PVal.nan
        = "NOTE: There is NOT statistically significant difference between the \x7bself.var\x7d values of two groups."
    ∧ occursIn "NDVI".data (noteText "NDVI" (PVal.val (1 / 100))).data = true
    ∧ noteText "NDVI" (PVal.val (1 / 100))
        = "NOTE: There is statistically significant difference between the NDVI values of two groups." := by
  refine ⟨by decide, by decide, by decide, by decide, by decide⟩

/-- C3 (counterexample): a run whose aligned series hold a single valid pair
does not fail with any error - it writes a report (the t statistic being
NaN), so no `InsufficientSampleError` exists on this path. -/
theorem no_insufficient_sample_error :
    isWroteE (Run (fun _ _ _ => 0) ⟨"NDVI", "Adana_01", "out"⟩
        ⟨[5, -1000], 1, "d1"⟩ ⟨[3, -1000], 1, "d2"⟩) = true
    ∧ tStatistic [(5 : ℚ)] [3] = TStat.nan := by
  refine ⟨by decide, by decide⟩

/-- C4 (counterexample): on the identical sequences `[1, 2]` and `[1, 2]`
the paired t-test returns NaN, which is neither the t statistic 0 nor the
p-value 1 the claim asserts. -/
theorem ttest_identical_not_zero_one :
    tStatistic [(1 : ℚ), 2] [1, 2] = TStat.nan
    ∧ TStat.isZeroStat (tStatistic [(1 : ℚ), 2] [1, 2]) = false
    ∧ PVal.isOne (pValue (fun _ _ _ => 0) 1 (tStatistic [(1 : ℚ), 2] [1, 2])) = false := by
  refine ⟨by decide, by decide, by decide⟩

/-- C5 (counterexample): for sentinel-free source rasters of 2 and 3 pixels
both masks shrink to numpy's `nomask`, so the `ma.array` re-masking calls
perform no size check at all: the run raises no error whatsoever (neither
before nor at mask alignment), prints the count-mismatch diagnostic, and
writes nothing - refuting the claimed fail-fast error.  In the broadcast
corner (single-sentinel-pixel reference, sentinel-free comparison) the run
even writes a report, over two empty series. -/
theorem mismatch_sentinel_free_no_error :
    RunN (fun _ _ _ => 0) ⟨"NDVI", "Adana_01", "out"⟩
        ⟨[1, 2], 1, "a"⟩ ⟨[1, 2, 3], 1, "b"⟩
      = Except.ok (RunOutcome.skipped lengthDiag)
    ∧ failsBeforeAlign (RunN (fun _ _ _ => 0) ⟨"NDVI", "Adana_01", "out"⟩
        ⟨[1, 2], 1, "a"⟩ ⟨[1, 2, 3], 1, "b"⟩) = false
    ∧ alignStageFailed (RunN (fun _ _ _ => 0) ⟨"NDVI", "Adana_01", "out"⟩
        ⟨[1, 2], 1, "a"⟩ ⟨[1, 2, 3], 1, "b"⟩) = false
    ∧ isWroteE (RunN (fun _ _ _ => 0) ⟨"NDVI", "Adana_01", "out"⟩
        ⟨[1, 2], 1, "a"⟩ ⟨[1, 2, 3], 1, "b"⟩) = false
    ∧ isWroteE (RunN (fun _ _ _ => 0) ⟨"NDVI", "Adana_01", "out"⟩
        ⟨[-1000], 1, "a"⟩ ⟨[1, 2], 1, "b"⟩) = true := by
  refine ⟨?_, by decide, by decide, by decide, by decide⟩
  rfl

end ConcreteEvaluations

end PairedTTest
